import Mathlib

/-!
Verification development for the translation/registration batch scripts
(`scripts/translate_openai.py` and `scripts/register_translations.py`).

Strings are embedded as Lean `String` (lists of characters); the Python
regular-expression substitutions are embedded by a small executable
backtracking matcher (`RE`, `pysub`) specialised to the constructs the
scripts use: literal text (optionally case-insensitive), single-character
classes, greedy and lazy repetition of a character class, optional pieces,
alternation, capture groups and the word-boundary assertion.  `re.sub`
semantics are reproduced: scan left to right, take the first match at the
leftmost matching position (backtracking preference order), substitute,
and continue scanning after the matched text.
-/

set_option maxRecDepth 8000

/-- Python `\s` (the ASCII whitespace characters; the texts handled by the
scripts contain no exotic Unicode whitespace). -/
def isSpaceC (c : Char) : Bool :=
  c == ' ' || c == '\t' || c == '\n' || c == '\r' || c == '\x0b' || c == '\x0c'

/-- Python `\d`. -/
def isDigitC (c : Char) : Bool := '0' ≤ c && c ≤ '9'

/-- Python `\w` restricted to the character repertoire of the scripts:
ASCII letters, digits, underscore, and the Arabic Unicode block (Arabic
letters are word characters for Python's Unicode `\b`). -/
def isWordC (c : Char) : Bool :=
  c.isAlpha || isDigitC c || c == '_' || (0x0600 ≤ c.toNat && c.toNat ≤ 0x06FF)

/-- Character comparison, optionally case-insensitive (`re.I`). -/
def chEq (ci : Bool) (p c : Char) : Bool :=
  if ci then p.toLower == c.toLower else p == c

/-- Python `str.strip()` on a character list. -/
def pyStrip (l : List Char) : List Char :=
  ((l.dropWhile isSpaceC).reverse.dropWhile isSpaceC).reverse

/-- Python `str.strip()` on a `String`. -/
def pyStripS (s : String) : String := ⟨pyStrip s.data⟩

/-- Regular-expression abstract syntax, restricted to what the scripts use. -/
inductive RE where
  | lit : List Char → Bool → RE
  | cls : (Char → Bool) → RE
  | starC : (Char → Bool) → RE
  | plusC : (Char → Bool) → RE
  | lazyC : (Char → Bool) → RE
  | opt : RE → RE
  | alt : RE → RE → RE
  | seq : RE → RE → RE
  | wb : RE
  | grp : RE → RE

/-- Sequence a list of regexes (empty list matches the empty string). -/
def seqs (l : List RE) : RE := l.foldr RE.seq (RE.lit [] false)

/-- Match a literal at the head of the input; returns the consumed input
characters and the remainder. -/
def litMatch (ci : Bool) : List Char → List Char → Option (List Char × List Char)
  | [], s => some ([], s)
  | _ :: _, [] => none
  | p :: ps, c :: cs =>
    if chEq ci p c then (litMatch ci ps cs).map (fun r => (c :: r.1, r.2)) else none

/-- All splits of a greedy character-class repetition, longest first. -/
def splitsG (p : Char → Bool) (s : List Char) : List (List Char × List Char) :=
  let t := s.takeWhile p
  let r := s.dropWhile p
  ((List.range (t.length + 1)).reverse).map (fun n => (t.take n, t.drop n ++ r))

/-- All splits of a lazy character-class repetition, shortest first. -/
def splitsL (p : Char → Bool) (s : List Char) : List (List Char × List Char) :=
  let t := s.takeWhile p
  let r := s.dropWhile p
  (List.range (t.length + 1)).map (fun n => (t.take n, t.drop n ++ r))

/-- Run a regex at the current position.  `prev` is the character
immediately before the position (for `\b`).  Returns every way the regex
can match a prefix of `s`, in backtracking preference order, as
`(consumed, captures, rest)`. -/
def RE.run : RE → Option Char → List Char → List (List Char × List (List Char) × List Char)
  | .lit p ci, _, s =>
    match litMatch ci p s with
    | some r => [(r.1, [], r.2)]
    | none => []
  | .cls p, _, s =>
    match s with
    | c :: r => if p c then [([c], [], r)] else []
    | [] => []
  | .starC p, _, s => (splitsG p s).map (fun r => (r.1, [], r.2))
  | .plusC p, _, s =>
    (splitsG p s).filterMap (fun r => if r.1.isEmpty then none else some (r.1, [], r.2))
  | .lazyC p, _, s => (splitsL p s).map (fun r => (r.1, [], r.2))
  | .opt r, prev, s => r.run prev s ++ [([], [], s)]
  | .alt a b, prev, s => a.run prev s ++ b.run prev s
  | .seq a b, prev, s =>
    (a.run prev s).flatMap (fun m1 =>
      let prev' := m1.1.getLast?.orElse (fun _ => prev)
      (b.run prev' m1.2.2).map (fun m2 => (m1.1 ++ m2.1, m1.2.1 ++ m2.2.1, m2.2.2)))
  | .wb, prev, s =>
    let l := prev.elim false isWordC
    let r := (s.head?).elim false isWordC
    if l != r then [([], [], s)] else []
  | .grp r, prev, s => (r.run prev s).map (fun m => (m.1, m.2.1 ++ [m.1], m.2.2))

/-- First (preferred) match of `r` at the current position. -/
def firstMatch (r : RE) (prev : Option Char) (s : List Char) :
    Option (List Char × List (List Char) × List Char) :=
  (r.run prev s).head?

/-- Global substitution scanner (fuelled; `pysub` supplies enough fuel). -/
def subGo (r : RE) (repl : List (List Char) → List Char) :
    Nat → Option Char → List Char → List Char
  | 0, _, s => s
  | fuel + 1, prev, s =>
    match firstMatch r prev s with
    | some m =>
      if m.1.isEmpty then
        match s with
        | [] => repl m.2.1
        | c :: s' => repl m.2.1 ++ c :: subGo r repl fuel (some c) s'
      else
        repl m.2.1 ++ subGo r repl fuel (m.1.getLast?.orElse (fun _ => prev)) m.2.2
    | none =>
      match s with
      | [] => []
      | c :: s' => c :: subGo r repl fuel (some c) s'

/-- Python `re.sub(r, repl, s)` (global). -/
def pysub (r : RE) (repl : List (List Char) → List Char) (s : List Char) : List Char :=
  subGo r repl (s.length + 1) none s

/-- Python `str.replace(pat, repl)` for a non-empty pattern: the same
left-to-right non-overlapping scan with a literal pattern. -/
def strReplace (pat repl s : List Char) : List Char :=
  pysub (.lit pat false) (fun _ => repl) s

/-! ## `scripts/translate_openai.py` — retry wrapper -/

/-- The transient error signals of `chat_retry`. -/
def transient_signals : List String := ["429", "500", "502", "503", "504", "ServiceUnavailable"]

/-- Substring test (Python `x in msg`). -/
def containsSub (s pat : String) : Bool :=
  s.data.tails.any (fun t => pat.data.isPrefixOf t)

/-- Whether an error message carries one of the transient signals
(`any(x in msg for x in (...))` in `chat_retry`). -/
def isTransient (msg : String) : Bool :=
  transient_signals.any (fun x => containsSub msg x)

/-- The retry loop of `chat_retry`.  The underlying chat call is modelled
by `f`, giving the outcome of the attempt with index `i` (`1`-based, as in
`range(1, attempts+1)`).  Returns the final outcome, the number of
attempts actually made, and the list of back-off sleeps performed
(`min(backoff_max, backoff_min * 2**(i-1))` seconds, as a rational). -/
def chatRetryAux (f : Nat → Except String String) (attempts : Nat) (bmin bmax : ℚ)
    (i : Nat) : Except String String × Nat × List ℚ :=
  match f i with
  | .ok v => (.ok v, 1, [])
  | .error e =>
    if h : isTransient e = true ∧ i < attempts then
      let slp := min bmax (bmin * 2 ^ (i - 1))
      let r := chatRetryAux f attempts bmin bmax (i + 1)
      (r.1, r.2.1 + 1, slp :: r.2.2)
    else (.error e, 1, [])
termination_by attempts - i
decreasing_by omega

/-- `chat_retry(messages, ..., attempts, backoff_min, backoff_max)`:
attempts start at `i = 1`. -/
def chat_retry (f : Nat → Except String String) (attempts : Nat) (bmin bmax : ℚ) :
    Except String String × Nat × List ℚ :=
  chatRetryAux f attempts bmin bmax 1

/-! ## `scripts/translate_openai.py` — disk cache and translation primitives

The process state threads the in-memory cache `_CACHE` (an association
list keyed by the request fingerprint) together with the list of remote
chat calls actually performed.  The remote service is modelled by a
deterministic total oracle `(system, user, model) ↦ content`; the retry
wrapper around it is analysed separately by `chat_retry` above. -/

structure ChatCall where
  system : String
  user : String
  model : String
deriving DecidableEq, Repr

structure TState where
  cache : List (String × String)
  calls : List ChatCall
deriving DecidableEq, Repr

abbrev ChatOracle := String → String → String → String

/-- `_sha_key`: the code computes
`sha256(json.dumps(obj, ensure_ascii=False, sort_keys=True))` of the
request-parameter dictionary `{"t","m","sys","usr"}`.  The SHA-256 step is
idealised as the identity on its (sorted-key JSON) preimage: the key is a
deterministic fingerprint of the full request parameters, which is all the
cache properties below depend on. -/
def sha_key (t m sys usr : String) : String :=
  "\x7b\"m\": \"" ++ m ++ "\", \"sys\": \"" ++ sys ++ "\", \"t\": \"" ++ t ++
    "\", \"usr\": \"" ++ usr ++ "\"\x7d"

/-- `cached_call(key, fn)`: exact-match lookup in `_CACHE`; on a miss run
`fn`, store the result under the key, and return it. -/
def cached_call (k : String) (fn : TState → String × TState) (s : TState) : String × TState :=
  match s.cache.lookup k with
  | some v => (v, s)
  | none =>
    let r := fn s
    (r.1, { r.2 with cache := (k, r.1) :: r.2.cache })

/-- The system prompt of `translate_text`. -/
def sysText : String :=
  "Translate Arabic to English precisely. No additions. Keep numbers/units. Do not translate brands/models."

/-- `translate_text(ar_text, model)`: content-addressed remote translation
of plain text.  The remote call (when performed) is recorded in
`calls`, and its `.strip()`-ed result is cached. -/
def translate_text (O : ChatOracle) (ar_text model : String) (s : TState) : String × TState :=
  let key := sha_key "translate_text" model sysText ar_text
  cached_call key
    (fun st => (pyStripS (O sysText ar_text model),
                { st with calls := st.calls ++ [⟨sysText, ar_text, model⟩] })) s

/-- The system prompt of `translate_html_in_place`. -/
def sysHtml : String :=
  "You are a precise technical translator.\nTranslate Arabic to English.\nRULES:\n• Translate ONLY human-visible text. Preserve ALL HTML tags/attributes/order exactly.\n• Do NOT add, remove, or infer features/specs.\n• Keep numbers/units/measurements exactly.\n• Do NOT translate brand names or model codes; leave them verbatim.\n• Return ONLY the translated HTML string."

/-- The user prompt of `translate_html_in_place`. -/
def usrHtml (ar_html : String) : String :=
  "Task: Translate the inner text of this HTML snippet from Arabic to English.\nReturn only the translated HTML (same tags & attributes):\n\n" ++ ar_html

/-- `translate_html_in_place(ar_html, model)`. -/
def translate_html_in_place (O : ChatOracle) (ar_html model : String) (s : TState) :
    String × TState :=
  let key := sha_key "translate_html" model sysHtml (usrHtml ar_html)
  cached_call key
    (fun st => (pyStripS (O sysHtml (usrHtml ar_html) model),
                { st with calls := st.calls ++ [⟨sysHtml, usrHtml ar_html, model⟩] })) s

/-- `re.sub(r"<[^>]+>", " ", ...)` pattern. -/
def reTag : RE := seqs [.lit "<".data false, .plusC (fun c => c != '>'), .lit ">".data false]

/-- `re.sub(r"\s+", " ", ...)` pattern. -/
def reWsPlus : RE := .plusC isSpaceC

/-- `html_to_text(html)`: drop tags, collapse whitespace, strip. -/
def html_to_text (s : String) : String :=
  ⟨pyStrip (pysub reWsPlus (fun _ => [' ']) (pysub reTag (fun _ => [' ']) s.data))⟩

/-! ## `scripts/translate_openai.py` — post-processing (auto-clean) -/

/-- `BRAND_MAP` (insertion order preserved). -/
def BRAND_MAP : List (String × String) :=
  [("شاومي", "Xiaomi"), ("سامسونج", "Samsung"), ("ابل", "Apple"),
   ("أبل", "Apple"), ("هواوي", "Huawei"), ("انكر", "Anker")]

/-- `r"\b360\s*degrees?\b"` (re.I). -/
def reDeg360 : RE :=
  seqs [.wb, .lit "360".data true, .starC isSpaceC, .lit "degree".data true,
        .opt (.lit "s".data true), .wb]

/-- `r"(\-?\d+)\s*degrees\s*Celsius"` (re.I). -/
def reDegC : RE :=
  seqs [.grp (seqs [.opt (.lit "-".data false), .plusC isDigitC]),
        .starC isSpaceC, .lit "degrees".data true, .starC isSpaceC, .lit "Celsius".data true]

/-- `r"\b(\d+)\s*grams?\b"` (re.I). -/
def reGrams : RE :=
  seqs [.wb, .grp (.plusC isDigitC), .starC isSpaceC, .lit "gram".data true,
        .opt (.lit "s".data true), .wb]

/-- `r"\b(\d+)\s*millimeters?\b"` (re.I). -/
def reMillim : RE :=
  seqs [.wb, .grp (.plusC isDigitC), .starC isSpaceC, .lit "millimeter".data true,
        .opt (.lit "s".data true), .wb]

/-- `r"(\d)(mm)\b"` (re.I). -/
def reDigitMm : RE := seqs [.grp (.cls isDigitC), .grp (.lit "mm".data true), .wb]

/-- The first capture group, or empty. -/
def cap0 (caps : List (List Char)) : List Char := caps.headD []

/-- `normalize_units_symbols(s)`: the five unit/symbol rewrites, in order. -/
def normalize_units_symbols (s : String) : String :=
  let l1 := pysub reDeg360 (fun _ => "360°".data) s.data
  let l2 := pysub reDegC (fun caps => cap0 caps ++ "°C".data) l1
  let l3 := pysub reGrams (fun caps => cap0 caps ++ " g".data) l2
  let l4 := pysub reMillim (fun caps => cap0 caps ++ " mm".data) l3
  let l5 := pysub reDigitMm (fun caps => cap0 caps ++ " mm".data) l4
  ⟨l5⟩

/-- `rf"Brand:\s*{re.escape(ar)}\b"` (re.I). -/
def reBrand (ar : String) : RE :=
  seqs [.lit "Brand:".data true, .starC isSpaceC, .lit ar.data true, .wb]

/-- `normalize_brand_names(html)`: the `Brand: X` regex pass over
`BRAND_MAP`, then the `<strong>Brand:</strong> X` literal-replace pass. -/
def normalize_brand_names (s : String) : String :=
  let l1 := BRAND_MAP.foldl
    (fun h ar_en => pysub (reBrand ar_en.1) (fun _ => ("Brand: " ++ ar_en.2).data) h) s.data
  let l2 := BRAND_MAP.foldl
    (fun h ar_en => strReplace ("<strong>Brand:</strong> " ++ ar_en.1).data
                               ("<strong>Brand:</strong> " ++ ar_en.2).data h) l1
  ⟨l2⟩

/-- `rf"<p[^>]*>\s*(?:<strong>)?\s*{label}\s*:[\s\S]*?</p>"` (re.I), the
shape of the four meta-paragraph patterns of `drop_meta_lines`. -/
def reMeta (label : String) : RE :=
  seqs [.lit "<p".data true, .starC (fun c => c != '>'), .lit ">".data false,
        .starC isSpaceC, .opt (.lit "<strong>".data true), .starC isSpaceC,
        .lit label.data true, .starC isSpaceC, .lit ":".data false,
        .lazyC (fun _ => true), .lit "</p>".data true]

/-- The four meta-paragraph labels, in the order of the `patterns` list. -/
def metaLabels : List String :=
  ["Product name in Arabic", "Product name in English",
   "اسم المنتج بالعربي", "اسم المنتج بالإنجليزي"]

/-- `r"\n{2,}"`. -/
def reNN : RE := .seq (.lit "\n\n".data false) (.starC (fun c => c == '\n'))

/-- `drop_meta_lines(html)`: remove the meta paragraphs, then collapse
runs of blank lines. -/
def drop_meta_lines (s : String) : String :=
  let l1 := metaLabels.foldl (fun h lab => pysub (reMeta lab) (fun _ => []) h) s.data
  ⟨pysub reNN (fun _ => "\n".data) l1⟩

/-- `r"\b(C400)\s+and\s+(C200)\b"` (case-sensitive). -/
def reC400 : RE :=
  seqs [.wb, .grp (.lit "C400".data false), .plusC isSpaceC, .lit "and".data false,
        .plusC isSpaceC, .grp (.lit "C200".data false), .wb]

/-- Replacement `r"\1 & \2"`. -/
def replAmp (caps : List (List Char)) : List Char :=
  cap0 caps ++ " & ".data ++ (caps.getD 1 [])

/-- `r"Works with Google Home\s+and\s+Alexa"` (re.I). -/
def reGoogle : RE :=
  seqs [.lit "Works with Google Home".data true, .plusC isSpaceC, .lit "and".data true,
        .plusC isSpaceC, .lit "Alexa".data true]

/-- `r"\((?:Assumed|Not mentioned)[^)]*\)"` (re.I). -/
def reAssumed : RE :=
  seqs [.lit "(".data false, .alt (.lit "Assumed".data true) (.lit "Not mentioned".data true),
        .starC (fun c => c != ')'), .lit ")".data false]

/-- `r">(Input)<"` (case-sensitive). -/
def reInput : RE := seqs [.lit ">".data false, .grp (.lit "Input".data false), .lit "<".data false]

/-- `r">Wireless connection<"` (re.I). -/
def reWireless : RE := .lit ">Wireless connection<".data true

/-- `r">Item dimensions<"` (re.I). -/
def reItemDim : RE := .lit ">Item dimensions<".data true

/-- `normalize_phrasing(html)`: the fixed table of phrasing rewrites, in order. -/
def normalize_phrasing (s : String) : String :=
  let l1 := pysub reC400 replAmp s.data
  let l2 := pysub reGoogle (fun _ => "Works with Google Home & Amazon Alexa".data) l1
  let l3 := pysub reAssumed (fun _ => "Not specified".data) l2
  let l4 := pysub reInput (fun _ => ">Power input<".data) l3
  let l5 := pysub reWireless (fun _ => ">Wireless<".data) l4
  let l6 := pysub reItemDim (fun _ => ">Dimensions<".data) l5
  ⟨l6⟩

/-- `r'\s*translate\s*=\s*"(?:no|false)"'` (re.I). -/
def reTransNo : RE :=
  seqs [.starC isSpaceC, .lit "translate".data true, .starC isSpaceC, .lit "=".data false,
        .starC isSpaceC, .lit "\"".data false,
        .alt (.lit "no".data true) (.lit "false".data true), .lit "\"".data false]

/-- `strip_translate_no_attr(html)`. -/
def strip_translate_no_attr (s : String) : String :=
  ⟨pysub reTransNo (fun _ => []) s.data⟩

/-! The final step of `postprocess_english_html` is
`re.sub(r">\s+</", "></", html)`.  It is embedded directly (rather than
through `pysub`) so that its idempotence can be proved for every input:
`wsTrig t` decides whether `\s+</` matches at the head of `t` — the
`\s+` repetition is effectively deterministic here because the literal
`</` that follows it cannot begin with a whitespace character — and
`trimGo` performs the left-to-right global substitution. -/

/-- After at least one whitespace character has been consumed: keep
consuming whitespace, then require the literal `</`; returns the rest. -/
def wsTrigCont : List Char → Option (List Char)
  | [] => none
  | c :: t =>
    if isSpaceC c then wsTrigCont t
    else if c = '<' ∧ t.head? = some '/' then some t.tail else none

/-- Whether `\s+</` matches at the head; returns the rest after `</`. -/
def wsTrig : List Char → Option (List Char)
  | [] => none
  | c :: t => if isSpaceC c then wsTrigCont t else none

/-- The `>\s+</ → ></` scanner (fuelled by the input length). -/
def trimGo : Nat → List Char → List Char
  | 0, s => s
  | _ + 1, [] => []
  | fuel + 1, c :: rest =>
    if c = '>' then
      match wsTrig rest with
      | some r' => '>' :: '<' :: '/' :: trimGo fuel r'
      | none => '>' :: trimGo fuel rest
    else c :: trimGo fuel rest

/-- `re.sub(r">\s+</", "></", html)` on a character list. -/
def trimTags (s : List Char) : List Char := trimGo s.length s

/-- `postprocess_english_html(html, *, drop_meta, normalize_units,
normalize_brands, fix_phrasing, strip_translate_no)`: each step is applied
exactly when its flag is set, in the source order, followed by the
unconditional inter-tag whitespace trim. -/
def postprocess_english_html (html : String)
    (drop_meta normalize_units normalize_brands fix_phrasing strip_translate_no : Bool) :
    String :=
  let h1 := if normalize_units then normalize_units_symbols html else html
  let h2 := if normalize_brands then normalize_brand_names h1 else h1
  let h3 := if fix_phrasing then normalize_phrasing h2 else h2
  let h4 := if drop_meta then drop_meta_lines h3 else h3
  let h5 := if strip_translate_no then strip_translate_no_attr h4 else h4
  ⟨trimTags h5.data⟩

/-- `make_title_en(title_ar, model)`: plain-text extraction, plain-text
translation, the ampersand-join polish, whitespace collapse + strip, and
truncation to 150 characters. -/
def make_title_en (O : ChatOracle) (title_ar model : String) (s : TState) : String × TState :=
  let ar_txt := html_to_text title_ar
  let r := translate_text O ar_txt model s
  let en := pysub reC400 replAmp r.1.data
  (⟨(pyStrip (pysub reWsPlus (fun _ => [' ']) en)).take 150⟩, r.2)

/-! ## `scripts/translate_openai.py` — `process_products` -/

/-- A product row: the four fields `process_products` reads or writes
(`p.get(..., "") or ""` yields `""` for a missing field). -/
structure Product where
  title_ar : String
  descriptionHtml_ar : String
  title_en : String
  descriptionHtml_en : String
deriving DecidableEq, Repr

/-- The body of the `process_products` loop for one product.  Remote
failures are modelled by the total oracle (the `except` fallbacks that
catch oracle exceptions are unreachable in this embedding; the
empty-output fallback is value-driven and is modelled). -/
def processItem (O : ChatOracle) (model : String) (force strip_tn : Bool)
    (brand_normalize : String) (p : Product) (s : TState) : Product × TState :=
  if p.title_en != "" && p.descriptionHtml_en != "" && !force then (p, s)
  else
    let r1 :=
      if p.title_ar != "" then
        let t := make_title_en O p.title_ar model s
        ({ p with title_en := t.1 }, t.2)
      else (p, s)
    if p.descriptionHtml_ar != "" then
      let r2 := translate_html_in_place O p.descriptionHtml_ar model r1.2
      let r3 :=
        if r2.1 = "" || pyStripS r2.1 = "" then
          let r4 := translate_text O (html_to_text p.descriptionHtml_ar) model r2.2
          ((if r4.1 != "" then "<p>" ++ r4.1 ++ "</p>" else ""), r4.2)
        else r2
      let d := postprocess_english_html r3.1 true true (brand_normalize == "en") true strip_tn
      ({ r1.1 with descriptionHtml_en := d }, r3.2)
    else r1

/-- `process_products(products, ...)`: the sequential batch loop,
threading the process-global cache state. -/
def process_products (O : ChatOracle) (model : String) (force strip_tn : Bool)
    (brand_normalize : String) : List Product → TState → List Product × TState
  | [], s => ([], s)
  | p :: rest, s =>
    let r := processItem O model force strip_tn brand_normalize p s
    let rs := process_products O model force strip_tn brand_normalize rest r.2
    (r.1 :: rs.1, rs.2)

/-! ## `scripts/register_translations.py` — core functions

The GraphQL layer is modelled by a per-item oracle: `fetch n` is the
digest map returned by the `(n+1)`-th `fetch_digests` call for the item
(the maps may differ across calls — Shopify indexes asynchronously), and
`register` is the outcome of `translationsRegister` (`.error` models the
`RuntimeError` raised on `userErrors`).  Oracles are total: transport
failures, which the loop of `main` does not catch, are out of scope. -/

/-- `normalize_cell(v)` for string-valued cells: `str(v).strip()`
(a missing cell / `None` is modelled as the empty string). -/
def normalize_cell (s : String) : String := pyStripS s

/-- The canonical resource prefix of `ensure_gid`. -/
def gidPre : String := "gid://shopify/Product/"

/-- `ensure_gid(product_id)`. -/
def ensure_gid (product_id : String) : String :=
  if gidPre.data.isPrefixOf product_id.data then product_id else gidPre ++ product_id

/-- `digests.get(key)` followed by Python truthiness: absent keys and
empty digests coincide (`fetch_digests` maps absent digests to `""`). -/
def dget (d : List (String × String)) (k : String) : String :=
  (d.lookup k).getD ""

/-- An input row as consumed by `main` (id, EN title, EN description). -/
structure Row where
  id : String
  title_en : String
  descriptionHtml_en : String
deriving DecidableEq, Repr

/-- A `TranslationInput` tuple as submitted to `translationsRegister`. -/
structure TranslationInput where
  key : String
  value : String
  locale : String
  translatableContentDigest : String
deriving DecidableEq, Repr

/-- The error message of `build_translations` for a missing title digest
(quotation marks of the original message elided). -/
def msgMissingTitle : String :=
  "Missing digest for title (primary title empty or not indexed yet)."

/-- The error message of `build_translations` for a missing description
digest (quotation marks of the original message elided). -/
def msgMissingDesc : String :=
  "Missing digest for body_html (primary description empty or not indexed yet)."

/-- `build_translations(row, locale, digests)`: one tuple per non-empty
target value; a non-empty value with a missing/empty digest raises. -/
def build_translations (row : Row) (locale : String) (digests : List (String × String)) :
    Except String (List TranslationInput) :=
  let title_en := normalize_cell row.title_en
  let desc_en := normalize_cell row.descriptionHtml_en
  let step1 : Except String (List TranslationInput) :=
    if title_en ≠ "" then
      if dget digests "title" = "" then .error msgMissingTitle
      else .ok [⟨"title", title_en, locale, dget digests "title"⟩]
    else .ok []
  match step1 with
  | .error e => .error e
  | .ok out1 =>
    if desc_en ≠ "" then
      if dget digests "body_html" = "" then .error msgMissingDesc
      else .ok (out1 ++ [⟨"body_html", desc_en, locale, dget digests "body_html"⟩])
    else .ok out1

/-- The per-item remote interface of `main`. -/
structure RemoteOracle where
  fetch : Nat → List (String × String)
  register : String → List TranslationInput → Except String Unit

/-- The CLI configuration relevant to the loop of `main`. -/
structure Cfg where
  locale : String
  ensureBase : Bool
  baseTitle : String
  baseDesc : String

/-- `need_title` in `main`: a non-empty EN title whose digest is missing
in the first fetched digest map. -/
def needTitle (orc : RemoteOracle) (row : Row) : Bool :=
  (normalize_cell row.title_en != "") && (dget (orc.fetch 0) "title" == "")

/-- `need_desc` in `main`. -/
def needDesc (orc : RemoteOracle) (row : Row) : Bool :=
  (normalize_cell row.descriptionHtml_en != "") && (dget (orc.fetch 0) "body_html" == "")

/-- The polling success test of `main`, on the digest map returned by the
`t`-th re-fetch. -/
def pollDone (orc : RemoteOracle) (row : Row) (t : Nat) : Bool :=
  (!(needTitle orc row) || (dget (orc.fetch t) "title" != "")) &&
  (!(needDesc orc row) || (dget (orc.fetch t) "body_html" != ""))

/-- The outcome of one item of the batch (`ok`/`fail` accounting states of
the loop of `main`). -/
inductive StepOutcome where
  | okStored
  | okNothing
  | failMissingId
  | failPoll (msg : String)
  | failBuild (msg : String)
  | failRegister (msg : String)
deriving DecidableEq, Repr

/-- The observable per-item trace of `main`: the `productUpdate` seeding
arguments if seeding happened, the polling sleeps performed (each a fixed
0.7 seconds), the payload submitted to `translationsRegister` if `register`
was invoked, and the accounting outcome. -/
structure StepTrace where
  seeded : Option (Option String × Option String)
  pollSleeps : List ℚ
  registered : Option (List TranslationInput)
  outcome : StepOutcome
deriving DecidableEq, Repr

/-- The `FAIL` message printed when polling exhausts its 20 attempts. -/
def msgPollFail : String := "FAIL: digests not ready yet; try again in ~30-60s"

/-- Steps 3 and 4 of the loop of `main`: build the payload from the digest
map in hand, register it unless it is empty, and classify the outcome. -/
def finishBuild (cfg : Cfg) (orc : RemoteOracle) (row : Row) (gid : String)
    (digests : List (String × String)) (seeded : Option (Option String × Option String))
    (sleeps : List ℚ) : StepTrace :=
  match build_translations row cfg.locale digests with
  | .error e => ⟨seeded, sleeps, none, .failBuild e⟩
  | .ok [] => ⟨seeded, sleeps, none, .okNothing⟩
  | .ok ts =>
    match orc.register gid ts with
    | .error e => ⟨seeded, sleeps, some ts, .failRegister e⟩
    | .ok _ => ⟨seeded, sleeps, some ts, .okStored⟩

/-- The `update_primary` arguments of the seeding step (`base_title` /
`base_desc` for the fields whose digest is missing). -/
def seedArgs (cfg : Cfg) (orc : RemoteOracle) (row : Row) : Option String × Option String :=
  ((if needTitle orc row then some cfg.baseTitle else none),
   (if needDesc orc row then some cfg.baseDesc else none))

/-- The body of the loop of `main` for one row: validate the id, fetch
digests, optionally seed primary content and poll for digests (20 attempts
at 0.7 s), then build and register. -/
def processRow (cfg : Cfg) (orc : RemoteOracle) (row : Row) : StepTrace :=
  if normalize_cell row.id = "" then ⟨none, [], none, .failMissingId⟩
  else if (needTitle orc row || needDesc orc row) && cfg.ensureBase then
    match (List.range 20).find? (fun k => pollDone orc row (k + 1)) with
    | some k =>
      finishBuild cfg orc row (ensure_gid (normalize_cell row.id)) (orc.fetch (k + 1))
        (some (seedArgs cfg orc row)) (List.replicate (k + 1) ((7 : ℚ) / 10))
    | none =>
      ⟨some (seedArgs cfg orc row), List.replicate 20 ((7 : ℚ) / 10), none,
       .failPoll msgPollFail⟩
  else finishBuild cfg orc row (ensure_gid (normalize_cell row.id)) (orc.fetch 0) none []

/-- Whether an outcome increments the `ok` counter of `main`. -/
def stepOk : StepOutcome → Bool
  | .okStored => true
  | .okNothing => true
  | _ => false

/-- The `(ok, fail)` contribution of one item. -/
def stepScore (cfg : Cfg) (jr : RemoteOracle × Row) : Nat × Nat :=
  if stepOk (processRow cfg jr.1 jr.2).outcome then (1, 0) else (0, 1)

/-- `ok, fail` accumulation for one item of the loop of `main`. -/
def batchStep (cfg : Cfg) (acc : Nat × Nat) (jr : RemoteOracle × Row) : Nat × Nat :=
  if stepOk (processRow cfg jr.1 jr.2).outcome then (acc.1 + 1, acc.2) else (acc.1, acc.2 + 1)

/-- The accumulating loop of `main` over all rows: the final
`(ok, fail)` tally.  Every item is processed; no per-item failure stops
the batch. -/
def runBatch (cfg : Cfg) (jobs : List (RemoteOracle × Row)) : Nat × Nat :=
  jobs.foldl (batchStep cfg) (0, 0)

/-! ## Lemmas: idempotence of the inter-tag whitespace trim -/

theorem wsTrigCont_len : ∀ t r, wsTrigCont t = some r → r.length < t.length := by
  intro t
  induction t with
  | nil => intro r h; simp [wsTrigCont] at h
  | cons c t ih =>
    intro r h
    by_cases hc : isSpaceC c = true
    · simp only [wsTrigCont, hc, if_true] at h
      exact Nat.lt_succ_of_lt (ih r h)
    · simp only [wsTrigCont, hc, Bool.false_eq_true, if_false] at h
      by_cases h2 : c = '<' ∧ t.head? = some '/'
      · rw [if_pos h2] at h
        cases h
        have := List.length_tail t
        simp only [List.length_cons]
        omega
      · simp [if_neg h2] at h

theorem wsTrig_len : ∀ t r, wsTrig t = some r → r.length < t.length := by
  intro t r h
  match t with
  | [] => simp [wsTrig] at h
  | c :: t' =>
    by_cases hc : isSpaceC c = true
    · simp only [wsTrig, hc, if_true] at h
      exact Nat.lt_succ_of_lt (wsTrigCont_len t' r h)
    · simp [wsTrig, hc] at h

theorem trimGo_congr (n : Nat) :
    ∀ s : List Char, s.length ≤ n → ∀ f g, s.length ≤ f → s.length ≤ g →
      trimGo f s = trimGo g s := by
  induction n with
  | zero =>
    intro s hs f g _ _
    have : s = [] := List.length_eq_zero.mp (Nat.le_zero.mp hs)
    subst this
    cases f <;> cases g <;> rfl
  | succ n ih =>
    intro s hs f g hf hg
    match s with
    | [] => cases f <;> cases g <;> rfl
    | c :: rest =>
      match f, g with
      | f' + 1, g' + 1 =>
        simp only [List.length_cons] at hs hf hg
        have hrest : rest.length ≤ n := Nat.lt_succ_iff.mp hs
        have hrf : rest.length ≤ f' := Nat.lt_succ_iff.mp hf
        have hrg : rest.length ≤ g' := Nat.lt_succ_iff.mp hg
        by_cases hc : c = '>'
        · subst hc
          simp only [trimGo, if_pos rfl]
          cases hw : wsTrig rest with
          | some r' =>
            have hlen := wsTrig_len rest r' hw
            exact congrArg (fun l => '>' :: '<' :: '/' :: l)
              (ih r' (le_trans (Nat.le_of_lt hlen) hrest) f' g'
                (le_trans (Nat.le_of_lt hlen) hrf) (le_trans (Nat.le_of_lt hlen) hrg))
          | none => exact congrArg (fun l => '>' :: l) (ih rest hrest f' g' hrf hrg)
        · simp only [trimGo, if_neg hc]
          exact congrArg (fun l => c :: l) (ih rest hrest f' g' hrf hrg)

theorem trimTags_nil : trimTags [] = [] := rfl

theorem trimTags_cons_ne (c : Char) (rest : List Char) (h : c ≠ '>') :
    trimTags (c :: rest) = c :: trimTags rest := by
  simp [trimTags, trimGo, h]

theorem trimTags_gt_some (rest r' : List Char) (h : wsTrig rest = some r') :
    trimTags ('>' :: rest) = '>' :: '<' :: '/' :: trimTags r' := by
  have hlen := wsTrig_len rest r' h
  simp only [trimTags, List.length_cons, trimGo, if_pos rfl, h]
  exact congrArg (fun l => '>' :: '<' :: '/' :: l)
    (trimGo_congr rest.length r' (Nat.le_of_lt hlen) rest.length r'.length
      (Nat.le_of_lt hlen) le_rfl)

theorem trimTags_gt_none (rest : List Char) (h : wsTrig rest = none) :
    trimTags ('>' :: rest) = '>' :: trimTags rest := by
  simp [trimTags, trimGo, h]

theorem trimTags_head : ∀ s : List Char, (trimTags s).head? = s.head? := by
  intro s
  match s with
  | [] => rfl
  | c :: rest =>
    by_cases hc : c = '>'
    · subst hc
      cases hw : wsTrig rest with
      | some r' =>
        rw [trimTags_gt_some rest r' hw]
        rfl
      | none =>
        rw [trimTags_gt_none rest hw]
        rfl
    · rw [trimTags_cons_ne c rest hc]
      rfl

/-- Whether `>\s+</` occurs anywhere in the string. -/
def hasTrig : List Char → Bool
  | [] => false
  | c :: rest => (c == '>' && (wsTrig rest).isSome) || hasTrig rest

theorem trimTags_fix : ∀ s : List Char, hasTrig s = false → trimTags s = s := by
  intro s
  induction s with
  | nil => intro _; rfl
  | cons c rest ih =>
    intro h
    simp only [hasTrig, Bool.or_eq_false_iff, Bool.and_eq_false_iff] at h
    obtain ⟨h1, h2⟩ := h
    by_cases hc : c = '>'
    · subst hc
      cases hw : wsTrig rest with
      | some r' =>
        rcases h1 with h1 | h1
        · simp at h1
        · rw [hw] at h1; simp at h1
      | none => rw [trimTags_gt_none rest hw, ih h2]
    · rw [trimTags_cons_ne c rest hc, ih h2]

theorem isSpaceC_ne_gt (c : Char) (h : isSpaceC c = true) : c ≠ '>' := by
  intro hc
  subst hc
  simp [isSpaceC] at h

theorem wsTrigCont_trim (n : Nat) :
    ∀ t : List Char, t.length ≤ n → wsTrigCont t = none →
      wsTrigCont (trimTags t) = none := by
  induction n with
  | zero =>
    intro t ht _
    have : t = [] := List.length_eq_zero.mp (Nat.le_zero.mp ht)
    subst this
    rfl
  | succ n ih =>
    intro t ht h
    match t with
    | [] => rfl
    | e :: t' =>
      simp only [List.length_cons] at ht
      have ht' : t'.length ≤ n := Nat.lt_succ_iff.mp ht
      by_cases he : isSpaceC e = true
      · simp only [wsTrigCont, he, if_true] at h
        rw [trimTags_cons_ne e t' (isSpaceC_ne_gt e he)]
        simp only [wsTrigCont, he, if_true]
        exact ih t' ht' h
      · simp only [wsTrigCont, he, Bool.false_eq_true, if_false] at h
        by_cases hgt : e = '>'
        · subst hgt
          cases hw : wsTrig t' with
          | some r' =>
            rw [trimTags_gt_some t' r' hw]
            simp [wsTrigCont, he]
          | none =>
            rw [trimTags_gt_none t' hw]
            simp [wsTrigCont, he]
        · rw [trimTags_cons_ne e t' hgt]
          have h2 : ¬(e = '<' ∧ t'.head? = some '/') := by
            intro hcontra
            rw [if_pos hcontra] at h
            exact Option.some_ne_none _ h
          simp only [wsTrigCont, he, Bool.false_eq_true, if_false]
          rw [if_neg]
          intro hcontra
          exact h2 ⟨hcontra.1, by rw [← trimTags_head t']; exact hcontra.2⟩

theorem trimTags_noTrig (n : Nat) :
    ∀ s : List Char, s.length ≤ n → hasTrig (trimTags s) = false := by
  induction n with
  | zero =>
    intro s hs
    have : s = [] := List.length_eq_zero.mp (Nat.le_zero.mp hs)
    subst this
    rfl
  | succ n ih =>
    intro s hs
    match s with
    | [] => rfl
    | c :: rest =>
      simp only [List.length_cons] at hs
      have hrest : rest.length ≤ n := Nat.lt_succ_iff.mp hs
      by_cases hc : c = '>'
      · subst hc
        cases hw : wsTrig rest with
        | some r' =>
          rw [trimTags_gt_some rest r' hw]
          have hr' : r'.length ≤ n := le_trans (Nat.le_of_lt (wsTrig_len rest r' hw)) hrest
          simp [hasTrig, wsTrig, isSpaceC, ih r' hr']
        | none =>
          rw [trimTags_gt_none rest hw]
          have hmain : wsTrig (trimTags rest) = none := by
            match rest with
            | [] => rfl
            | d :: t' =>
              by_cases hd : isSpaceC d = true
              · simp only [wsTrig, hd, if_true] at hw
                rw [trimTags_cons_ne d t' (isSpaceC_ne_gt d hd)]
                simp only [wsTrig, hd, if_true]
                exact wsTrigCont_trim n t' (by simp at hrest; omega) hw
              · have hhead : (trimTags (d :: t')).head? = some d := by
                  rw [trimTags_head]; rfl
                match hm : trimTags (d :: t') with
                | [] => rw [hm] at hhead; simp at hhead
                | a :: b =>
                  rw [hm] at hhead
                  simp only [List.head?_cons, Option.some.injEq] at hhead
                  subst hhead
                  simp [wsTrig, hd]
          simp [hasTrig, hmain, ih rest hrest]
      · rw [trimTags_cons_ne c rest hc]
        simp [hasTrig, hc, ih rest hrest]

/-- `re.sub(r">\s+</", "></", ...)` is idempotent on every input. -/
theorem trimTags_idem (s : List Char) : trimTags (trimTags s) = trimTags s :=
  trimTags_fix (trimTags s) (trimTags_noTrig s.length s le_rfl)

/-! ## Lemmas: the batch loop of `main` -/

theorem runBatch_go (cfg : Cfg) :
    ∀ (jobs : List (RemoteOracle × Row)) (a b : Nat),
      jobs.foldl (batchStep cfg) (a, b) =
        (a + (runBatch cfg jobs).1, b + (runBatch cfg jobs).2) := by
  intro jobs
  induction jobs with
  | nil => intro a b; simp [runBatch]
  | cons j rest ih =>
    intro a b
    simp only [runBatch, List.foldl_cons]
    by_cases h : stepOk (processRow cfg j.1 j.2).outcome = true
    · simp only [batchStep, if_pos h]
      rw [ih (a + 1) b, ih 1 0]
      simp only [Prod.mk.injEq]
      omega
    · simp only [batchStep, if_neg h]
      rw [ih a (b + 1), ih 0 1]
      simp only [Prod.mk.injEq]
      omega

/-- Processing `j :: rest` adds the score of `j` to the tally of `rest`:
the batch always continues past any single item. -/
theorem runBatch_cons (cfg : Cfg) (j : RemoteOracle × Row) (rest : List (RemoteOracle × Row)) :
    runBatch cfg (j :: rest) =
      ((stepScore cfg j).1 + (runBatch cfg rest).1,
       (stepScore cfg j).2 + (runBatch cfg rest).2) := by
  simp only [runBatch, List.foldl_cons, stepScore]
  by_cases h : stepOk (processRow cfg j.1 j.2).outcome = true
  · simp only [batchStep, if_pos h]
    rw [runBatch_go cfg rest 1 0]
    simp only [runBatch, Prod.mk.injEq]
  · simp only [batchStep, if_neg h]
    rw [runBatch_go cfg rest 0 (0 + 1)]
    simp only [runBatch, Prod.mk.injEq]

/-! ## Lemmas: digest gating in `build_translations` and `processRow` -/

/-- Every tuple emitted by a successful `build_translations` carries a
non-empty digest. -/
theorem build_translations_digests (row : Row) (locale : String)
    (digests : List (String × String)) (ts : List TranslationInput)
    (h : build_translations row locale digests = .ok ts) :
    ∀ t ∈ ts, t.translatableContentDigest ≠ "" := by
  intro t ht
  unfold build_translations at h
  by_cases ht1 : normalize_cell row.title_en = ""
  · simp only [ht1, ne_eq, not_true_eq_false, if_false] at h
    by_cases hd1 : normalize_cell row.descriptionHtml_en = ""
    · simp only [hd1, ne_eq, not_true_eq_false, if_false] at h
      cases h
      simp at ht
    · simp only [ne_eq, hd1, not_false_eq_true, if_true] at h
      by_cases hdb : dget digests "body_html" = ""
      · simp [hdb] at h
      · simp only [hdb, if_false, Except.ok.injEq] at h
        subst h
        simp only [List.nil_append, List.mem_singleton] at ht
        subst ht
        exact hdb
  · simp only [ne_eq, ht1, not_false_eq_true, if_true] at h
    by_cases hdt : dget digests "title" = ""
    · simp [hdt] at h
    · simp only [hdt, if_false] at h
      by_cases hd1 : normalize_cell row.descriptionHtml_en = ""
      · simp only [hd1, ne_eq, not_true_eq_false, if_false, Except.ok.injEq] at h
        subst h
        simp only [List.mem_singleton] at ht
        subst ht
        exact hdt
      · simp only [ne_eq, hd1, not_false_eq_true, if_true] at h
        by_cases hdb : dget digests "body_html" = ""
        · simp [hdb] at h
        · simp only [hdb, if_false, Except.ok.injEq] at h
          subst h
          simp only [List.mem_append, List.mem_singleton] at ht
          rcases ht with ht | ht <;> subst ht
          · exact hdt
          · exact hdb

/-- A non-empty target title with a missing/empty digest makes
`build_translations` raise (before `register` can be reached); likewise
for the description. -/
theorem build_translations_missing (row : Row) (locale : String)
    (digests : List (String × String)) :
    (normalize_cell row.title_en ≠ "" → dget digests "title" = "" →
      build_translations row locale digests = .error msgMissingTitle) ∧
    (normalize_cell row.descriptionHtml_en ≠ "" → dget digests "body_html" = "" →
      (∃ e, build_translations row locale digests = .error e)) := by
  constructor
  · intro h1 h2
    simp [build_translations, h1, h2]
  · intro h1 h2
    unfold build_translations
    by_cases ht1 : normalize_cell row.title_en = ""
    · refine ⟨msgMissingDesc, ?_⟩
      simp [ht1, h1, h2]
    · by_cases hdt : dget digests "title" = ""
      · refine ⟨msgMissingTitle, ?_⟩
        simp [ht1, hdt]
      · refine ⟨msgMissingDesc, ?_⟩
        simp [ht1, hdt, h1, h2]

/-- If `register` was invoked for an item, the submitted payload is
exactly a successful `build_translations` result for the digest map the
protocol settled on. -/
theorem finishBuild_registered (cfg : Cfg) (orc : RemoteOracle) (row : Row) (gid : String)
    (digests : List (String × String)) (sd : Option (Option String × Option String))
    (sl : List ℚ) (ts : List TranslationInput)
    (h : (finishBuild cfg orc row gid digests sd sl).registered = some ts) :
    build_translations row cfg.locale digests = .ok ts := by
  unfold finishBuild at h
  split at h
  · simp at h
  · simp at h
  · rename_i ts' heq
    split at h <;> simp only [Option.some.injEq] at h <;> rw [heq, h]

/-- `processRow` invokes `register` only with a payload produced by a
successful `build_translations` on some fetched digest map. -/
theorem processRow_registered (cfg : Cfg) (orc : RemoteOracle) (row : Row)
    (ts : List TranslationInput)
    (h : (processRow cfg orc row).registered = some ts) :
    ∃ digests, build_translations row cfg.locale digests = .ok ts := by
  unfold processRow at h
  split at h
  · simp at h
  · split at h
    · split at h
      · rename_i k _
        exact ⟨orc.fetch (k + 1), finishBuild_registered cfg orc row _ _ _ _ ts h⟩
      · simp at h
    · exact ⟨orc.fetch 0, finishBuild_registered cfg orc row _ _ _ _ ts h⟩

/-- A row with a missing id is reported as a failure immediately:
nothing is fetched, seeded, or registered. -/
theorem processRow_missing_id (cfg : Cfg) (orc : RemoteOracle) (row : Row)
    (h : normalize_cell row.id = "") :
    processRow cfg orc row = ⟨none, [], none, .failMissingId⟩ := by
  simp [processRow, h]

/-- Without seeding authorisation, a failing `build_translations` makes
the item fail with the build error; `register` is not invoked. -/
theorem processRow_build_error (cfg : Cfg) (orc : RemoteOracle) (row : Row) (e : String)
    (hid : normalize_cell row.id ≠ "") (hEB : cfg.ensureBase = false)
    (hb : build_translations row cfg.locale (orc.fetch 0) = .error e) :
    processRow cfg orc row = ⟨none, [], none, .failBuild e⟩ := by
  simp [processRow, hid, hEB, finishBuild, hb]

/-- An empty job (no non-empty target value) is accounted `okNothing`:
nothing is registered and the item counts as a success. -/
theorem processRow_empty_job (cfg : Cfg) (orc : RemoteOracle) (row : Row)
    (hid : normalize_cell row.id ≠ "") (ht : normalize_cell row.title_en = "")
    (hd : normalize_cell row.descriptionHtml_en = "") :
    processRow cfg orc row = ⟨none, [], none, .okNothing⟩ := by
  have hnt : needTitle orc row = false := by simp [needTitle, ht]
  have hnd : needDesc orc row = false := by simp [needDesc, hd]
  simp [processRow, hid, hnt, hnd, finishBuild, build_translations, ht, hd]

/-- With seeding authorised and a digest needed, if none of the 20 polls
succeeds the item fails with the polling message after exactly 20 sleeps
of 0.7 s; `register` is not invoked and no exception escapes. -/
theorem processRow_poll_exhausted (cfg : Cfg) (orc : RemoteOracle) (row : Row)
    (hid : normalize_cell row.id ≠ "") (hEB : cfg.ensureBase = true)
    (hneed : (needTitle orc row || needDesc orc row) = true)
    (hfail : ∀ k < 20, pollDone orc row (k + 1) = false) :
    processRow cfg orc row =
      ⟨some (seedArgs cfg orc row), List.replicate 20 ((7 : ℚ) / 10), none,
       .failPoll msgPollFail⟩ := by
  have hfind : (List.range 20).find? (fun k => pollDone orc row (k + 1)) = none :=
    List.find?_eq_none.mpr (fun x hx => by simp [hfail x (List.mem_range.mp hx)])
  simp [processRow, hid, hEB, hneed, hfind]

/-! ## Lemmas: the retry loop of `chat_retry` -/

theorem chatRetryAux_retry (f : Nat → Except String String) (attempts : Nat) (bmin bmax : ℚ)
    (i : Nat) (e : String) (h1 : f i = .error e) (h2 : isTransient e = true)
    (h3 : i < attempts) :
    chatRetryAux f attempts bmin bmax i =
      ((chatRetryAux f attempts bmin bmax (i + 1)).1,
       (chatRetryAux f attempts bmin bmax (i + 1)).2.1 + 1,
       min bmax (bmin * 2 ^ (i - 1)) :: (chatRetryAux f attempts bmin bmax (i + 1)).2.2) := by
  rw [chatRetryAux, h1]
  dsimp only
  rw [dif_pos ⟨h2, h3⟩]

theorem chatRetryAux_stop (f : Nat → Except String String) (attempts : Nat) (bmin bmax : ℚ)
    (i : Nat) (e : String) (h1 : f i = .error e)
    (h2 : isTransient e = false ∨ attempts ≤ i) :
    chatRetryAux f attempts bmin bmax i = (.error e, 1, []) := by
  rw [chatRetryAux, h1]
  dsimp only
  rw [dif_neg]
  rintro ⟨ha, hb⟩
  rcases h2 with h2 | h2
  · rw [h2] at ha; exact Bool.false_ne_true ha
  · omega

/-! ## Spec-side refinement definitions -/

/-- The title pipeline as the spec words it: strip HTML tags and collapse
whitespace from the source, translate the result as plain text, apply only
the ampersand-join phrasing fixup, collapse whitespace and trim, truncate
to at most 150 characters. -/
def make_title_spec (O : ChatOracle) (title_ar model : String) (s : TState) : String × TState :=
  let plain := html_to_text title_ar
  let tr := translate_text O plain model s
  let polished := pysub reC400 replAmp tr.1.data
  let collapsed := pyStrip (pysub reWsPlus (fun _ => [' ']) polished)
  (⟨collapsed.take 150⟩, tr.2)

/-- The post-processing pipeline as the spec words it: the sequential
composition units → brands → phrasing → boilerplate removal → optional
attribute strip, each step applied exactly when its flag is set and the
identity otherwise, followed by the inter-tag whitespace trim. -/
def postprocess_spec_order (html : String) (dm nu nb fp st : Bool) : String :=
  let step1 := (if nu then normalize_units_symbols else id) html
  let step2 := (if nb then normalize_brand_names else id) step1
  let step3 := (if fp then normalize_phrasing else id) step2
  let step4 := (if dm then drop_meta_lines else id) step3
  let step5 := (if st then strip_translate_no_attr else id) step4
  ⟨trimTags step5.data⟩

/-! ## Claim theorems -/

/-- C10: `ensure_gid` is a canonicalizing projection: its result always
starts with `gid://shopify/Product/`, an already-prefixed string is
returned unchanged, and the function is idempotent. -/
theorem C10_ensure_gid_canonical (s : String) :
    gidPre.data.isPrefixOf (ensure_gid s).data = true ∧
    (gidPre.data.isPrefixOf s.data = true → ensure_gid s = s) ∧
    ensure_gid (ensure_gid s) = ensure_gid s := by
  by_cases h : gidPre.data.isPrefixOf s.data = true
  · simp [ensure_gid, h]
  · have hpre : gidPre.data.isPrefixOf (gidPre ++ s).data = true := by
      rw [String.data_append, List.isPrefixOf_iff_prefix]
      exact List.prefix_append _ _
    have hGid : ensure_gid s = gidPre ++ s := by
      unfold ensure_gid
      rw [if_neg h]
    refine ⟨?_, fun h2 => absurd h2 h, ?_⟩
    · rw [hGid]
      exact hpre
    · rw [hGid]
      unfold ensure_gid
      rw [if_pos hpre]

/-- Witness for C10 at concrete inputs: a numeric id is prefixed, a
canonical id is returned unchanged, and re-application is stable. -/
theorem C10_witness :
    gidPre.data.isPrefixOf (ensure_gid "8923").data = true ∧
    ensure_gid "gid://shopify/Product/8923" = "gid://shopify/Product/8923" ∧
    ensure_gid (ensure_gid "8923") = ensure_gid "8923" :=
  ⟨(C10_ensure_gid_canonical "8923").1,
   (C10_ensure_gid_canonical "gid://shopify/Product/8923").2.1 (by decide),
   (C10_ensure_gid_canonical "8923").2.2⟩

/-- C7: `postprocess_english_html` equals the sequential composition of
its enabled steps in the fixed order units → brands → phrasing →
meta-paragraph removal → optional `translate="no"` strip, followed by the
inter-tag whitespace trim; each step runs exactly when its flag is set and
is skipped (identity) otherwise. -/
theorem C7_postprocess_order (html : String) (dm nu nb fp st : Bool) :
    postprocess_english_html html dm nu nb fp st = postprocess_spec_order html dm nu nb fp st := by
  cases dm <;> cases nu <;> cases nb <;> cases fp <;> cases st <;> rfl

/-- C9: `make_title_en` equals the restricted title pipeline (plain-text
extraction, plain-text translation, only the ampersand-join fixup,
whitespace collapse and trim, truncation), and every returned title has at
most 150 characters. -/
theorem C9_make_title_pipeline (O : ChatOracle) (t model : String) (s : TState) :
    make_title_en O t model s = make_title_spec O t model s ∧
    (make_title_en O t model s).1.length ≤ 150 := by
  refine ⟨rfl, ?_⟩
  show (List.take 150 (pyStrip (pysub reWsPlus (fun _ => [' '])
    (pysub reC400 replAmp (translate_text O (html_to_text t) model s).1.data)))).length ≤ 150
  rw [List.length_take]
  exact min_le_left _ _

/-- The input refuting idempotence of the post-processing pipeline:
removing the inner meta paragraph juxtaposes `<p>` with a second
`Product name in Arabic:` label, creating a fresh meta-paragraph match
that only a second application removes. -/
def exMeta : String := "<p><p>Product name in Arabic: m</p>Product name in Arabic: z</p>"

/-- Counterexample to C5: with the default flag settings
(`drop_meta = normalize_units = normalize_brands = fix_phrasing = true`,
`strip_translate_no = false`) applying `postprocess_english_html` twice to
`exMeta` yields a different string than applying it once (once gives
`<p>Product name in Arabic: z</p>`, twice gives the empty string). -/
theorem C5_counterexample :
    postprocess_english_html (postprocess_english_html exMeta true true true true false)
        true true true true false ≠
      postprocess_english_html exMeta true true true true false := by
  decide

/-- C5 (amended): the pipeline is not idempotent in general — the
meta-paragraph removal step is not a no-op on its own output (see
`C5_counterexample`); the final inter-tag whitespace trim is idempotent on
every input, so with all optional rewrite steps disabled
`postprocess_english_html` applied twice equals one application. -/
theorem C5_amended_trim_idem (html : String) :
    postprocess_english_html (postprocess_english_html html false false false false false)
        false false false false false =
      postprocess_english_html html false false false false false := by
  show (⟨trimTags (⟨trimTags html.data⟩ : String).data⟩ : String) = ⟨trimTags html.data⟩
  exact congrArg String.mk (trimTags_idem html.data)

/-- The two cache properties of `cached_call`: a second call with the same
key returns the first result and leaves the whole state (cache and
performed remote calls) unchanged, and the first result is stored in the
cache under the key. -/
theorem cached_call_stable (k : String) (fn : TState → String × TState) (s0 : TState) :
    cached_call k fn ((cached_call k fn s0).2) = cached_call k fn s0 ∧
    ((cached_call k fn s0).2).cache.lookup k = some (cached_call k fn s0).1 := by
  unfold cached_call
  cases h : s0.cache.lookup k with
  | some v => simp [h]
  | none => simp [h, List.lookup]

/-- C4: within one process lifetime, a repeated `translate_text` or
`translate_html_in_place` invocation with identical (source, role
instructions, model) returns exactly the string computed and stored by the
first invocation and performs no remote chat call (the state — cache and
call log — is unchanged); results are stored under the exact-match
fingerprint key of the full request parameters. -/
theorem C4_translate_cache_idempotent (O : ChatOracle) (ar model : String) (s0 : TState) :
    translate_text O ar model ((translate_text O ar model s0).2) =
      translate_text O ar model s0 ∧
    ((translate_text O ar model s0).2).cache.lookup
        (sha_key "translate_text" model sysText ar) =
      some (translate_text O ar model s0).1 ∧
    translate_html_in_place O ar model ((translate_html_in_place O ar model s0).2) =
      translate_html_in_place O ar model s0 ∧
    ((translate_html_in_place O ar model s0).2).cache.lookup
        (sha_key "translate_html" model sysHtml (usrHtml ar)) =
      some (translate_html_in_place O ar model s0).1 :=
  ⟨(cached_call_stable _ _ s0).1, (cached_call_stable _ _ s0).2,
   (cached_call_stable _ _ s0).1, (cached_call_stable _ _ s0).2⟩

/-- C3: with the default attempt ceiling of 6 (and default back-off bounds
1 s / 20 s), a chat call that fails with a transient signal on every
attempt is attempted exactly 6 times, sleeping the exponential back-off
after each of the first 5, and then raises the last error; a call whose
error carries no transient signal is attempted exactly once and the error
propagates immediately with no sleep. -/
theorem C3_chat_retry_bound (f g : Nat → Except String String) (ms : Nat → String) (e : String)
    (hf : ∀ i, f i = .error (ms i)) (ht : ∀ i, isTransient (ms i) = true)
    (hg : g 1 = .error e) (he : isTransient e = false) :
    chat_retry f 6 1 20 = (.error (ms 6), 6, [1, 2, 4, 8, 16]) ∧
    chat_retry g 6 1 20 = (.error e, 1, []) := by
  constructor
  · unfold chat_retry
    rw [chatRetryAux_retry f 6 1 20 1 (ms 1) (hf 1) (ht 1) (by omega)]
    rw [chatRetryAux_retry f 6 1 20 2 (ms 2) (hf 2) (ht 2) (by omega)]
    rw [chatRetryAux_retry f 6 1 20 3 (ms 3) (hf 3) (ht 3) (by omega)]
    rw [chatRetryAux_retry f 6 1 20 4 (ms 4) (hf 4) (ht 4) (by omega)]
    rw [chatRetryAux_retry f 6 1 20 5 (ms 5) (hf 5) (ht 5) (by omega)]
    rw [chatRetryAux_stop f 6 1 20 6 (ms 6) (hf 6) (Or.inr (by omega))]
    norm_num
  · unfold chat_retry
    rw [chatRetryAux_stop g 6 1 20 1 e hg (Or.inl he)]

/-- A failed item adds to the failure tally and the batch continues with
the remaining items. -/
theorem runBatch_cons_fail (cfg : Cfg) (j : RemoteOracle × Row)
    (rest : List (RemoteOracle × Row)) (h : stepOk (processRow cfg j.1 j.2).outcome = false) :
    runBatch cfg (j :: rest) = ((runBatch cfg rest).1, (runBatch cfg rest).2 + 1) := by
  rw [runBatch_cons]
  have hs : stepScore cfg j = (0, 1) := by
    unfold stepScore
    rw [if_neg (by simp [h])]
  rw [hs]
  simp [Nat.add_comm]

/-- A successful item adds to the success tally and the batch continues
with the remaining items. -/
theorem runBatch_cons_ok (cfg : Cfg) (j : RemoteOracle × Row)
    (rest : List (RemoteOracle × Row)) (h : stepOk (processRow cfg j.1 j.2).outcome = true) :
    runBatch cfg (j :: rest) = ((runBatch cfg rest).1 + 1, (runBatch cfg rest).2) := by
  rw [runBatch_cons]
  have hs : stepScore cfg j = (1, 0) := by
    unfold stepScore
    rw [if_pos h]
  rw [hs]
  simp [Nat.add_comm]

/-- C1: `register` is only ever invoked with tuples whose digest is
non-empty (on every path of the protocol), and a row with a non-empty
target title (resp. description) whose digest is missing from the fetched
digest map — with no seeding authorised — makes payload construction
raise, the item is tallied as failed, the batch continues with the
remaining rows, and `register` is not called for that item. -/
theorem C1_digest_gating (cfg : Cfg) (orc : RemoteOracle) (row : Row)
    (rest : List (RemoteOracle × Row)) (ts : List TranslationInput) :
    ((processRow cfg orc row).registered = some ts →
      ∀ t ∈ ts, t.translatableContentDigest ≠ "") ∧
    (cfg.ensureBase = false → normalize_cell row.id ≠ "" →
     normalize_cell row.title_en ≠ "" → dget (orc.fetch 0) "title" = "" →
      processRow cfg orc row = ⟨none, [], none, .failBuild msgMissingTitle⟩ ∧
      runBatch cfg ((orc, row) :: rest) =
        ((runBatch cfg rest).1, (runBatch cfg rest).2 + 1)) ∧
    (cfg.ensureBase = false → normalize_cell row.id ≠ "" →
     normalize_cell row.descriptionHtml_en ≠ "" → dget (orc.fetch 0) "body_html" = "" →
      ∃ e, processRow cfg orc row = ⟨none, [], none, .failBuild e⟩ ∧
        runBatch cfg ((orc, row) :: rest) =
          ((runBatch cfg rest).1, (runBatch cfg rest).2 + 1)) := by
  refine ⟨?_, ?_, ?_⟩
  · intro h t ht
    obtain ⟨d, hd⟩ := processRow_registered cfg orc row ts h
    exact build_translations_digests row cfg.locale d ts hd t ht
  · intro hEB hid h1 h2
    have hb := (build_translations_missing row cfg.locale (orc.fetch 0)).1 h1 h2
    have hp := processRow_build_error cfg orc row msgMissingTitle hid hEB hb
    exact ⟨hp, runBatch_cons_fail cfg (orc, row) rest (by simp [hp, stepOk])⟩
  · intro hEB hid h1 h2
    obtain ⟨e, hb⟩ := (build_translations_missing row cfg.locale (orc.fetch 0)).2 h1 h2
    have hp := processRow_build_error cfg orc row e hid hEB hb
    exact ⟨e, hp, runBatch_cons_fail cfg (orc, row) rest (by simp [hp, stepOk])⟩

/-- A configuration with seeding disabled (defaults otherwise). -/
def cfg0 : Cfg := ⟨"en", false, "—", "<p>—</p>"⟩

/-- A configuration with seeding enabled (`--ensure-base`). -/
def cfg6 : Cfg := ⟨"en", true, "—", "<p>—</p>"⟩

/-- An oracle whose digest maps are always empty and whose register call
always succeeds. -/
def orc0 : RemoteOracle := ⟨fun _ => [], fun _ _ => .ok ()⟩

/-- An oracle with both digests present. -/
def orcD : RemoteOracle :=
  ⟨fun _ => [("title", "d1"), ("body_html", "d2")], fun _ _ => .ok ()⟩

/-- Witness for C1: with both digests present the registered payload
indeed carries non-empty digests, and with the title digest missing the
item fails at payload construction, is tallied as failed, and nothing is
registered. -/
theorem C1_witness :
    (∀ t ∈ [(⟨"title", "Title EN", "en", "d1"⟩ : TranslationInput)],
      t.translatableContentDigest ≠ "") ∧
    processRow cfg0 orc0 ⟨"123", "Title EN", ""⟩ =
      ⟨none, [], none, .failBuild msgMissingTitle⟩ ∧
    runBatch cfg0 [(orc0, ⟨"123", "Title EN", ""⟩)] = (0, 1) := by
  refine ⟨(C1_digest_gating cfg0 orcD ⟨"123", "Title EN", ""⟩ [] _).1 (by decide), ?_⟩
  have h := (C1_digest_gating cfg0 orc0 ⟨"123", "Title EN", ""⟩ [] []).2.1 rfl
    (by decide) (by decide) rfl
  exact ⟨h.1, by rw [h.2]; rfl⟩

/-- A row with a present id and an empty job. -/
def row0 : Row := ⟨"1", "", ""⟩

/-- Counterexample to C2: an empty job (id present, both target values
empty) is reported (`Nothing to register`) and the batch continues, but it
is counted in the *success* tally, not the failure tally: the batch over
this single row ends with `ok = 1`, `fail = 0`. -/
theorem C2_counterexample :
    runBatch cfg0 [(orc0, row0)] = (1, 0) ∧
    (processRow cfg0 orc0 row0).outcome = .okNothing := by
  constructor <;> decide

/-- C2 (amended): a missing item identifier is reported per item, counted
in the failure tally, and the batch continues with the next item; an empty
job (no non-empty target title or description) is reported per item, the
batch continues, and no retry occurs — but it is counted in the success
tally (`ok += 1`), not the failure tally.  In both cases nothing is
registered for the item. -/
theorem C2_validation_accounting (cfg : Cfg) (orc : RemoteOracle) (row : Row)
    (rest : List (RemoteOracle × Row)) :
    (normalize_cell row.id = "" →
      processRow cfg orc row = ⟨none, [], none, .failMissingId⟩ ∧
      runBatch cfg ((orc, row) :: rest) =
        ((runBatch cfg rest).1, (runBatch cfg rest).2 + 1)) ∧
    (normalize_cell row.id ≠ "" → normalize_cell row.title_en = "" →
     normalize_cell row.descriptionHtml_en = "" →
      processRow cfg orc row = ⟨none, [], none, .okNothing⟩ ∧
      runBatch cfg ((orc, row) :: rest) =
        ((runBatch cfg rest).1 + 1, (runBatch cfg rest).2)) := by
  constructor
  · intro h
    have hp := processRow_missing_id cfg orc row h
    exact ⟨hp, runBatch_cons_fail cfg (orc, row) rest (by simp [hp, stepOk])⟩
  · intro h1 h2 h3
    have hp := processRow_empty_job cfg orc row h1 h2 h3
    exact ⟨hp, runBatch_cons_ok cfg (orc, row) rest (by simp [hp, stepOk])⟩

/-- Witness for C2 at concrete rows: one with a missing id (tallied as a
failure) and one with an empty job (tallied as a success). -/
theorem C2_witness :
    (processRow cfg0 orc0 ⟨"", "T", "D"⟩ = ⟨none, [], none, .failMissingId⟩ ∧
     runBatch cfg0 [(orc0, ⟨"", "T", "D"⟩)] = (0, 1)) ∧
    (processRow cfg0 orc0 row0 = ⟨none, [], none, .okNothing⟩ ∧
     runBatch cfg0 [(orc0, row0)] = (1, 0)) := by
  constructor
  · have h := (C2_validation_accounting cfg0 orc0 ⟨"", "T", "D"⟩ []).1 rfl
    exact ⟨h.1, by rw [h.2]; rfl⟩
  · have h := (C2_validation_accounting cfg0 orc0 row0 []).2 (by decide) rfl rfl
    exact ⟨h.1, by rw [h.2]; rfl⟩

/-- C6: with seeding authorised and a required digest missing, after
seeding the protocol re-fetches the digest map on a fixed 0.7-second
interval at most 20 times; if the required digests have not all appeared
after the 20th attempt the item is marked failed with the descriptive
polling message, `register` is not invoked, no exception escapes (the item
yields an ordinary trace), and the batch proceeds to the next item. -/
theorem C6_poll_exhaustion (cfg : Cfg) (orc : RemoteOracle) (row : Row)
    (rest : List (RemoteOracle × Row))
    (hid : normalize_cell row.id ≠ "") (hEB : cfg.ensureBase = true)
    (hneed : (needTitle orc row || needDesc orc row) = true)
    (hfail : ∀ k < 20, pollDone orc row (k + 1) = false) :
    processRow cfg orc row =
      ⟨some (seedArgs cfg orc row), List.replicate 20 ((7 : ℚ) / 10), none,
       .failPoll msgPollFail⟩ ∧
    runBatch cfg ((orc, row) :: rest) =
      ((runBatch cfg rest).1, (runBatch cfg rest).2 + 1) := by
  have hp := processRow_poll_exhausted cfg orc row hid hEB hneed hfail
  exact ⟨hp, runBatch_cons_fail cfg (orc, row) rest (by simp [hp, stepOk])⟩

/-- Witness for C6: an item whose digest never appears exhausts all 20
polls of 0.7 s, is marked failed, registers nothing, and the single-item
batch tallies one failure. -/
theorem C6_witness :
    processRow cfg6 orc0 ⟨"1", "T", ""⟩ =
      ⟨some (seedArgs cfg6 orc0 ⟨"1", "T", ""⟩), List.replicate 20 ((7 : ℚ) / 10), none,
       .failPoll msgPollFail⟩ ∧
    runBatch cfg6 [(orc0, ⟨"1", "T", ""⟩)] = (0, 1) := by
  have h := C6_poll_exhaustion cfg6 orc0 ⟨"1", "T", ""⟩ [] (by decide) rfl rfl
    (fun k _ => rfl)
  exact ⟨h.1, by rw [h.2]; rfl⟩

/-- Witness for C3 at concrete call outcomes: a permanently rate-limited
call is attempted exactly 6 times and raises after the back-off sleeps
1, 2, 4, 8, 16 s; a call failing with a non-transient message is attempted
once and raises immediately with no sleep. -/
theorem C3_witness :
    chat_retry (fun _ => .error "429") 6 1 20 = (.error "429", 6, [1, 2, 4, 8, 16]) ∧
    chat_retry (fun _ => .error "boom") 6 1 20 = (.error "boom", 1, []) := by
  have h429 : isTransient "429" = true := by decide
  have hboom : isTransient "boom" = false := by decide
  exact C3_chat_retry_bound (fun _ => .error "429") (fun _ => .error "boom")
    (fun _ => "429") "boom" (fun _ => rfl) (fun _ => h429) rfl hboom

/-- C8: with the force flag unset, a product whose `title_en` and
`descriptionHtml_en` are both non-empty is appended to the output
unchanged with no translation call (the cache/call state is untouched);
a batch of already-translated products is returned unchanged, so re-runs
are idempotent by default; with force set the skip does not apply and the
title is re-translated. -/
theorem C8_process_skip (O : ChatOracle) (model : String) (stn : Bool) (bn : String) :
    (∀ (p : Product) (s : TState), p.title_en ≠ "" → p.descriptionHtml_en ≠ "" →
      processItem O model false stn bn p s = (p, s)) ∧
    (∀ (ps : List Product) (s : TState),
      (∀ p ∈ ps, p.title_en ≠ "" ∧ p.descriptionHtml_en ≠ "") →
      process_products O model false stn bn ps s = (ps, s)) ∧
    (∀ (p : Product) (s : TState), p.title_ar ≠ "" →
      (processItem O model true stn bn p s).1.title_en =
        (make_title_en O p.title_ar model s).1) := by
  have hskip : ∀ (p : Product) (s : TState), p.title_en ≠ "" → p.descriptionHtml_en ≠ "" →
      processItem O model false stn bn p s = (p, s) := by
    intro p s h1 h2
    unfold processItem
    rw [if_pos (by simp [h1, h2])]
  refine ⟨hskip, ?_, ?_⟩
  · intro ps
    induction ps with
    | nil => intro s _; rfl
    | cons p rest ih =>
      intro s hall
      obtain ⟨h1, h2⟩ := hall p (List.mem_cons_self p rest)
      unfold process_products
      rw [hskip p s h1 h2]
      simp only [ih s (fun q hq => hall q (List.mem_cons_of_mem p hq))]
  · intro p s hta
    have hbt : (p.title_ar != "") = true := by simpa using hta
    unfold processItem
    rw [if_neg (by simp), if_pos hbt]
    by_cases hd : (p.descriptionHtml_ar != "") = true
    · rw [if_pos hd]
    · rw [if_neg hd]

/-- A fixed oracle and an already-translated product for the C8 witness. -/
def oracle0 : ChatOracle := fun _ _ _ => "X"

/-- A product with Arabic sources and populated English targets. -/
def prod0 : Product := ⟨"عنوان", "<p>وصف</p>", "Title EN", "<p>Desc EN</p>"⟩

/-- Witness for C8: the populated product is skipped unchanged with no
remote call, the one-element batch is returned unchanged, and with force
the title is recomputed from the Arabic source. -/
theorem C8_witness :
    processItem oracle0 "m" false false "en" prod0 ⟨[], []⟩ = (prod0, ⟨[], []⟩) ∧
    process_products oracle0 "m" false false "en" [prod0] ⟨[], []⟩ = ([prod0], ⟨[], []⟩) ∧
    (processItem oracle0 "m" true false "en" prod0 ⟨[], []⟩).1.title_en =
      (make_title_en oracle0 prod0.title_ar "m" ⟨[], []⟩).1 :=
  ⟨(C8_process_skip oracle0 "m" false "en").1 prod0 ⟨[], []⟩ (by decide) (by decide),
   (C8_process_skip oracle0 "m" false "en").2.1 [prod0] ⟨[], []⟩
     (by intro p hp; rw [List.mem_singleton] at hp; subst hp; exact ⟨by decide, by decide⟩),
   (C8_process_skip oracle0 "m" false "en").2.2 prod0 ⟨[], []⟩ (by decide)⟩
